import Mathlib

/-
Verification of the `DecodeDetections` Keras layer
(src/keras_layers/keras_layer_DecodeDetections.py) against its
natural-language specification.

The layer post-processes SSD predictions: it decodes anchor-relative box
offsets into corner coordinates (call, lines 95-116), validates its
configuration at construction time (__init__, lines 49-77), and runs a
confidence-threshold -> per-class NMS -> top-k pipeline (call, lines
125-230).

Embedding choices:
* The coordinate decode (which uses exp) is embedded over the reals.
* The filtering pipeline works on per-box rows of scores and coordinates;
  scores and coordinates are embedded as rationals so that every pipeline
  definition is executable.
* Tensors are embedded as lists: a batch is a list of images, an image a
  list of per-anchor rows.  A row of the concatenated prediction tensor
  (class scores followed by the four corner coordinates, source line 119)
  is a structure `PredRow` with the score list and the box; the rows of
  width 6 built by `filter_single_class` (source line 146) are the
  structure `Candidate` with exactly the six fields
  `[class_id, confidence, xmin, ymin, xmax, ymax]`.
* `tf.image.non_max_suppression` and `tf.nn.top_k` are TensorFlow
  builtins, not code of this repository; they are modelled from the
  specification text (greedy NMS, section 4.3; top-k selection by
  confidence descending with stable tie-breaking).
* `tf.pad` with computed padding amounts is embedded with truncated
  natural subtraction, matching the specification's description of
  padding "up to" a target size (sections 4.3, 4.4, 9).
-/

namespace DecodeDetections

/-! ### Part 1: box decoding (source lines 95-116), over the reals

The last twelve entries of an input row are, in order (spec section 3):
`[cx_offset, cy_offset, w_offset, h_offset, cx_anchor, cy_anchor,
  w_anchor, h_anchor, var_cx, var_cy, var_w, var_h]`,
so the source's negative indices translate as
`-12 = cx_offset, -11 = cy_offset, -10 = w_offset, -9 = h_offset,
 -8 = cx_anchor, -7 = cy_anchor, -6 = w_anchor, -5 = h_anchor,
 -4 = var_cx, -3 = var_cy, -2 = var_w, -1 = var_h`. -/

structure EncodedRow where
  cx_offset : ℝ
  cy_offset : ℝ
  w_offset : ℝ
  h_offset : ℝ
  cx_anchor : ℝ
  cy_anchor : ℝ
  w_anchor : ℝ
  h_anchor : ℝ
  var_cx : ℝ
  var_cy : ℝ
  var_w : ℝ
  var_h : ℝ

/-- Corner-form coordinates `(xmin, ymin, xmax, ymax)`. -/
structure Corners where
  xmin : ℝ
  ymin : ℝ
  xmax : ℝ
  ymax : ℝ

/-- Source lines 95-104: decode the anchor-relative offsets and convert
centroids to corners.  `y[-12] * y[-4] * y[-6] + y[-8]` is
`cx_offset * var_cx * w_anchor + cx_anchor`, and so on. -/
noncomputable def decodeCorners (y : EncodedRow) : Corners :=
  let cx := y.cx_offset * y.var_cx * y.w_anchor + y.cx_anchor
  let cy := y.cy_offset * y.var_cy * y.h_anchor + y.cy_anchor
  let w := Real.exp (y.w_offset * y.var_w) * y.w_anchor
  let h := Real.exp (y.h_offset * y.var_h) * y.h_anchor
  { xmin := cx - 0.5 * w
    ymin := cy - 0.5 * h
    xmax := cx + 0.5 * w
    ymax := cy + 0.5 * h }

/-- Source lines 107-116: when `normalize_coords` is set multiply the x
coordinates by the image width and the y coordinates by the image height
(`normalized_coords`), otherwise return the corners unchanged
(`non_normalized_coords`). -/
noncomputable def callCoords (normalize_coords : Bool) (img_height img_width : ℝ)
    (y : EncodedRow) : Corners :=
  let c := decodeCorners y
  if normalize_coords then
    { xmin := c.xmin * img_width
      ymin := c.ymin * img_height
      xmax := c.xmax * img_width
      ymax := c.ymax * img_height }
  else
    c

/-- The decode formulas exactly as the specification states them
(section 4.1), for comparison with the source embedding `callCoords`:
`cx = cx_offset * var_cx * w_anchor + cx_anchor`,
`cy = cy_offset * var_cy * h_anchor + cy_anchor`,
`w = exp(w_offset * var_w) * w_anchor`,
`h = exp(h_offset * var_h) * h_anchor`,
`xmin = cx - 0.5*w ; ymin = cy - 0.5*h ; xmax = cx + 0.5*w ;
 ymax = cy + 0.5*h`,
then, when normalization is configured, `xmin, xmax` are multiplied by
the image width and `ymin, ymax` by the image height. -/
noncomputable def specDecode (normalize_coords : Bool) (img_height img_width : ℝ)
    (y : EncodedRow) : Corners :=
  let cx := y.cx_offset * y.var_cx * y.w_anchor + y.cx_anchor
  let cy := y.cy_offset * y.var_cy * y.h_anchor + y.cy_anchor
  let w := Real.exp (y.w_offset * y.var_w) * y.w_anchor
  let h := Real.exp (y.h_offset * y.var_h) * y.h_anchor
  let xmin := cx - 0.5 * w
  let ymin := cy - 0.5 * h
  let xmax := cx + 0.5 * w
  let ymax := cy + 0.5 * h
  if normalize_coords then
    { xmin := xmin * img_width, ymin := ymin * img_height
      xmax := xmax * img_width, ymax := ymax * img_height }
  else
    { xmin := xmin, ymin := ymin, xmax := xmax, ymax := ymax }

/-! ### Part 2: construction (__init__, source lines 49-77)

The backend check at line 49 concerns the runtime environment, not the
arguments; construction is modelled under the tensorflow backend, which
is the repository's standing assumption.  After the two argument checks
(lines 52-56) the constructor stores its arguments and builds TensorFlow
constants from them (lines 69-75); `tf.constant(v, dtype=tf.float32)`
rejects `v = None`, which is what `tfConstantFloat` captures. -/

/-- Behaviour of `tf.constant(v, dtype=tf.float32)` on an optional
numeric argument: a `None` value is rejected. -/
def tfConstantFloat (v : Option ℚ) : Except String ℚ :=
  match v with
  | none => Except.error "None values not supported."
  | some x => Except.ok x

/-- The configuration stored by a successfully constructed layer. -/
structure Config where
  confidence_thresh : ℚ
  iou_threshold : ℚ
  top_k : ℕ
  nms_max_output_size : ℕ
  normalize_coords : Bool
  img_height : ℚ
  img_width : ℚ
  coords : String

/-- Source lines 52-77: `__init__` under the tensorflow backend.  It
raises when `normalize_coords` is set and either image dimension is
missing (line 52), when `coords` is not the string centroids (line 55),
and otherwise proceeds to build TensorFlow constants from its stored
arguments, including `tf.constant(self.img_height, dtype=tf.float32)`
and `tf.constant(self.img_width, dtype=tf.float32)` (lines 73-74), which
fail when the respective argument is `None`. -/
def decodeDetectionsInit (confidence_thresh iou_threshold : ℚ)
    (top_k nms_max_output_size : ℕ) (coords : String)
    (normalize_coords : Bool) (img_height img_width : Option ℚ) :
    Except String Config :=
  if normalize_coords ∧ (img_height = none ∨ img_width = none) then
    Except.error "如果使用相对坐标, 并且想转换为绝对坐标, 那么需要传人图像大小的值."
  else if coords ≠ "centroids" then
    Except.error "此层只支持 centroids 坐标格式."
  else do
    let h ← tfConstantFloat img_height
    let w ← tfConstantFloat img_width
    Except.ok
      { confidence_thresh := confidence_thresh
        iou_threshold := iou_threshold
        top_k := top_k
        nms_max_output_size := nms_max_output_size
        normalize_coords := normalize_coords
        img_height := h
        img_width := w
        coords := coords }

/-! ### Part 3: the filtering pipeline (call, source lines 125-230) -/

/-- A box in corner form, with rational coordinates. -/
structure Box where
  xmin : ℚ
  ymin : ℚ
  xmax : ℚ
  ymax : ℚ
deriving DecidableEq

/-- One row of width 6 of the tensors built inside
`filter_single_class` (source line 146): class id (stored as a number,
`tf.to_float(index)`), confidence, and the four corner coordinates. -/
structure Candidate where
  class_id : ℚ
  conf : ℚ
  box : Box
deriving DecidableEq

/-- The six entries of a `Candidate` row, in tensor order. -/
def Candidate.toList (c : Candidate) : List ℚ :=
  [c.class_id, c.conf, c.box.xmin, c.box.ymin, c.box.xmax, c.box.ymax]

/-- One row of the concatenated prediction tensor (source line 119): the
class confidence scores followed by the four decoded corner
coordinates. -/
structure PredRow where
  confs : List ℚ
  box : Box

/-- Source line 128: `class_indices = tf.range(1, n_classes)`. -/
def classIndices (n_classes : ℕ) : List ℕ :=
  List.range' 1 (n_classes - 1)

/-- Source lines 142-146: the row
`[class_id, confidence, box_coordinates]` that `filter_single_class`
builds for one anchor box and one class index. -/
def mkCandidate (index : ℕ) (r : PredRow) : Candidate :=
  { class_id := (index : ℚ), conf := r.confs.getD index 0, box := r.box }

/-- Source lines 149-151: keep exactly the rows whose confidence for the
given class is strictly above the threshold
(`single_class[:,1] > self.tf_confidence_thresh`). -/
def singleClassThresholded (confidence_thresh : ℚ) (index : ℕ)
    (batch_item : List PredRow) : List Candidate :=
  (batch_item.map (mkCandidate index)).filter
    (fun c => decide (confidence_thresh < c.conf))

/-- Signed area of a corner box. -/
def Box.area (b : Box) : ℚ :=
  (b.xmax - b.xmin) * (b.ymax - b.ymin)

/-- Overlap area of two corner boxes: the product of the clamped
per-axis overlaps. -/
def interArea (a b : Box) : ℚ :=
  max 0 (min a.xmax b.xmax - max a.xmin b.xmin) *
    max 0 (min a.ymax b.ymax - max a.ymin b.ymin)

/-- Modelled from the spec: `tf.image.non_max_suppression` is a
TensorFlow builtin, not code of this repository; section 4.3 defines the
overlap measure it uses as
`intersection_area / (area_a + area_b - intersection_area)`, with
zero-area boxes treated as non-overlapping (IoU = 0) except when
identical (IoU = 1). -/
def iou (a b : Box) : ℚ :=
  if a.area = 0 ∨ b.area = 0 then (if a = b then 1 else 0)
  else interArea a b / (a.area + b.area - interArea a b)

/-- Insert a row into a list sorted by confidence descending, after
every earlier row of greater or equal confidence (stable order). -/
def insertByConfDesc (x : Candidate) : List Candidate → List Candidate
  | [] => [x]
  | y :: ys => if y.conf ≤ x.conf then x :: y :: ys else y :: insertByConfDesc x ys

/-- Stable sort by confidence descending: equal-confidence rows keep
their input order, as `tf.nn.top_k` guarantees for its sorted output. -/
def sortByConfDesc : List Candidate → List Candidate
  | [] => []
  | x :: xs => insertByConfDesc x (sortByConfDesc xs)

/-- Modelled from the spec: the greedy selection loop of
`tf.image.non_max_suppression` (a TensorFlow builtin, not code of this
repository), section 4.3: on a confidence-descending candidate list,
repeatedly keep the head and discard every remaining candidate whose IoU
with it exceeds the threshold, stopping after `max_output_size` kept
rows. -/
def nmsGo (iou_threshold : ℚ) : ℕ → List Candidate → List Candidate
  | 0, _ => []
  | _, [] => []
  | Nat.succ k, x :: xs =>
      x :: nmsGo iou_threshold k
        (xs.filter (fun y => decide (iou x.box y.box ≤ iou_threshold)))

/-- Source lines 154-172 (`perform_nms`): greedy NMS of the surviving
rows of one class, keeping at most `max_output_size` of them. -/
def performNMS (iou_threshold : ℚ) (max_output_size : ℕ)
    (single_class : List Candidate) : List Candidate :=
  nmsGo iou_threshold max_output_size (sortByConfDesc single_class)

/-- The zero-sentinel row: all six fields equal to zero
(`tf.constant(value=0.0, shape=(1,6))` produces one such row, and all
padding uses `constant_values=0.0`). -/
def zeroCandidate : Candidate :=
  { class_id := 0, conf := 0, box := { xmin := 0, ymin := 0, xmax := 0, ymax := 0 } }

/-- `tf.pad` with `constant_values=0.0` along the row axis: append
zero-sentinel rows up to the target length (source lines 181-184 and
208-211). -/
def padTo (n : ℕ) (l : List Candidate) : List Candidate :=
  l ++ List.replicate (n - l.length) zeroCandidate

/-- Source lines 137-186 (`filter_single_class`): threshold the rows of
one class, run NMS unless nothing survived (in which case
`no_confident_predictions` yields one zero row, line 176), then pad to
exactly `nms_max_output_size` rows. -/
def filterSingleClass (cfg : Config) (batch_item : List PredRow)
    (index : ℕ) : List Candidate :=
  let single_class := singleClassThresholded cfg.confidence_thresh index batch_item
  let single_class_nms :=
    if single_class = [] then [zeroCandidate]
    else performNMS cfg.iou_threshold cfg.nms_max_output_size single_class
  padTo cfg.nms_max_output_size single_class_nms

/-- Source lines 203-206 (`top_k`): select the `top_k` rows of greatest
confidence, sorted descending (`tf.nn.top_k(..., sorted=True)` followed
by `tf.gather`). -/
def topK (top_k : ℕ) (filtered_predictions : List Candidate) : List Candidate :=
  (sortByConfDesc filtered_predictions).take top_k

/-- Source lines 207-214 (`pad_and_top_k`): pad with zero rows up to
`top_k` rows first, then select as `top_k` does. -/
def padAndTopK (top_k : ℕ) (filtered_predictions : List Candidate) : List Candidate :=
  topK top_k (padTo top_k filtered_predictions)

/-- Source lines 134-218 (`filter_predictions`): run
`filter_single_class` for every class index in `1 ..= n_classes - 1`,
concatenate the per-class blocks (`tf.reshape` to shape `(-1, 6)`, line
199), and select the final `top_k` rows, padding first exactly when
fewer than `top_k` rows are present (line 216). -/
def filterPredictions (cfg : Config) (n_classes : ℕ)
    (batch_item : List PredRow) : List Candidate :=
  let filtered_predictions :=
    ((classIndices n_classes).map (filterSingleClass cfg batch_item)).flatten
  if cfg.top_k ≤ filtered_predictions.length then
    topK cfg.top_k filtered_predictions
  else
    padAndTopK cfg.top_k filtered_predictions

/-- Source lines 221-230: the layer's call maps `filter_predictions`
over the images of the batch. -/
def callLayer (cfg : Config) (n_classes : ℕ)
    (batch : List (List PredRow)) : List (List Candidate) :=
  batch.map (filterPredictions cfg n_classes)

/-! ### Concrete data for the witnesses -/

/-- A unit-placed box of area 4. -/
def boxU : Box := { xmin := 0, ymin := 0, xmax := 2, ymax := 2 }

/-- A box of area 4 disjoint from `boxU`. -/
def boxV : Box := { xmin := 10, ymin := 10, xmax := 12, ymax := 12 }

def candA : Candidate := { class_id := 1, conf := 2, box := boxU }

def candB : Candidate := { class_id := 1, conf := 1, box := boxU }

def candD : Candidate := { class_id := 1, conf := 1, box := boxV }

/-- An anchor row whose class confidences are all at most 1. -/
def rowLow : PredRow := { confs := [0, 1, 0], box := boxU }

/-- A small configuration used by the witnesses. -/
def cfgW : Config :=
  { confidence_thresh := 1, iou_threshold := 1, top_k := 2
    nms_max_output_size := 3, normalize_coords := false
    img_height := 300, img_width := 300, coords := "centroids" }

/-! ### Helper lemmas about the sort, the greedy NMS loop and padding -/

theorem mem_insertByConfDesc {x a : Candidate} {l : List Candidate} :
    a ∈ insertByConfDesc x l ↔ a = x ∨ a ∈ l := by
  induction l with
  | nil => simp [insertByConfDesc]
  | cons y ys ih =>
      simp only [insertByConfDesc]
      split
      · simp [List.mem_cons]
      · simp only [List.mem_cons, ih]
        tauto

theorem length_insertByConfDesc (x : Candidate) (l : List Candidate) :
    (insertByConfDesc x l).length = l.length + 1 := by
  induction l with
  | nil => rfl
  | cons y ys ih =>
      simp only [insertByConfDesc]
      split
      · rfl
      · simp [ih]

theorem length_sortByConfDesc (l : List Candidate) :
    (sortByConfDesc l).length = l.length := by
  induction l with
  | nil => rfl
  | cons x xs ih => simp [sortByConfDesc, length_insertByConfDesc, ih]

theorem mem_sortByConfDesc {a : Candidate} {l : List Candidate} :
    a ∈ sortByConfDesc l ↔ a ∈ l := by
  induction l with
  | nil => simp [sortByConfDesc]
  | cons x xs ih => simp [sortByConfDesc, mem_insertByConfDesc, ih]

theorem pairwise_insertByConfDesc {x : Candidate} {l : List Candidate}
    (h : l.Pairwise (fun a b => b.conf ≤ a.conf)) :
    (insertByConfDesc x l).Pairwise (fun a b => b.conf ≤ a.conf) := by
  induction l with
  | nil => simp [insertByConfDesc]
  | cons y ys ih =>
      rw [List.pairwise_cons] at h
      simp only [insertByConfDesc]
      split
      · rename_i hle
        refine List.Pairwise.cons ?_ (List.pairwise_cons.mpr h)
        intro z hz
        rcases List.mem_cons.mp hz with rfl | hz
        · exact hle
        · exact le_trans (h.1 z hz) hle
      · rename_i hlt
        push_neg at hlt
        refine List.Pairwise.cons ?_ (ih h.2)
        intro z hz
        rcases mem_insertByConfDesc.mp hz with rfl | hz
        · exact le_of_lt hlt
        · exact h.1 z hz

theorem pairwise_sortByConfDesc (l : List Candidate) :
    (sortByConfDesc l).Pairwise (fun a b => b.conf ≤ a.conf) := by
  induction l with
  | nil => simp [sortByConfDesc]
  | cons x xs ih => exact pairwise_insertByConfDesc ih

theorem sortByConfDesc_eq_self {l : List Candidate}
    (h : l.Pairwise (fun a b => b.conf ≤ a.conf)) :
    sortByConfDesc l = l := by
  induction l with
  | nil => rfl
  | cons x xs ih =>
      rw [List.pairwise_cons] at h
      simp only [sortByConfDesc, ih h.2]
      cases xs with
      | nil => rfl
      | cons y ys =>
          simp only [insertByConfDesc]
          rw [if_pos (h.1 y (List.mem_cons_self y ys))]

theorem nmsGo_nil (iou_threshold : ℚ) (k : ℕ) :
    nmsGo iou_threshold k [] = [] := by
  cases k <;> rfl

theorem nmsGo_sublist (iou_threshold : ℚ) (k : ℕ) (l : List Candidate) :
    (nmsGo iou_threshold k l).Sublist l := by
  induction k generalizing l with
  | zero => cases l <;> exact List.nil_sublist _
  | succ k ih =>
      cases l with
      | nil => exact List.Sublist.refl []
      | cons x xs =>
          exact List.Sublist.cons₂ x ((ih _).trans (List.filter_sublist xs))

theorem length_nmsGo_le (iou_threshold : ℚ) (k : ℕ) (l : List Candidate) :
    (nmsGo iou_threshold k l).length ≤ k := by
  induction k generalizing l with
  | zero => cases l <;> simp [nmsGo]
  | succ k ih =>
      cases l with
      | nil => simp [nmsGo]
      | cons x xs =>
          simpa [nmsGo] using ih (xs.filter fun y => decide (iou x.box y.box ≤ iou_threshold))

theorem pairwise_iou_nmsGo (iou_threshold : ℚ) (k : ℕ) (l : List Candidate) :
    (nmsGo iou_threshold k l).Pairwise
      (fun a b => iou a.box b.box ≤ iou_threshold) := by
  induction k generalizing l with
  | zero => cases l <;> simp [nmsGo]
  | succ k ih =>
      cases l with
      | nil => simp [nmsGo]
      | cons x xs =>
          simp only [nmsGo]
          refine List.Pairwise.cons ?_ (ih _)
          intro y hy
          have hy2 := (nmsGo_sublist iou_threshold k _).mem hy
          exact of_decide_eq_true (List.mem_filter.mp hy2).2

theorem nmsGo_eq_self {iou_threshold : ℚ} {k : ℕ} {l : List Candidate}
    (hsep : l.Pairwise (fun a b => iou a.box b.box ≤ iou_threshold))
    (hlen : l.length ≤ k) :
    nmsGo iou_threshold k l = l := by
  induction l generalizing k with
  | nil => exact nmsGo_nil iou_threshold k
  | cons x xs ih =>
      cases k with
      | zero => simp at hlen
      | succ k =>
          rw [List.pairwise_cons] at hsep
          have hfilter : (xs.filter fun y => decide (iou x.box y.box ≤ iou_threshold)) = xs :=
            List.filter_eq_self.mpr fun y hy => decide_eq_true (hsep.1 y hy)
          simp only [nmsGo, hfilter]
          rw [ih hsep.2 (by simpa using hlen)]

theorem length_padTo (n : ℕ) (l : List Candidate) :
    (padTo n l).length = max l.length n := by
  simp only [padTo, List.length_append, List.length_replicate]
  omega

theorem mem_padTo {n : ℕ} {l : List Candidate} {a : Candidate}
    (h : a ∈ padTo n l) : a ∈ l ∨ a = zeroCandidate := by
  rcases List.mem_append.mp h with h1 | h1
  · exact Or.inl h1
  · exact Or.inr (List.mem_replicate.mp h1).2

theorem length_topK (k : ℕ) (l : List Candidate) :
    (topK k l).length = min k l.length := by
  simp [topK, List.length_take, length_sortByConfDesc]

theorem length_filterPredictions (cfg : Config) (n_classes : ℕ)
    (batch_item : List PredRow) :
    (filterPredictions cfg n_classes batch_item).length = cfg.top_k := by
  unfold filterPredictions
  simp only []
  split
  · rename_i h
    rw [length_topK]
    omega
  · rename_i h
    push_neg at h
    rw [padAndTopK, length_topK, length_padTo]
    omega

/-- Unfolding of `filterPredictions` with its intermediate list written
out, for rewriting. -/
theorem filterPredictions_def (cfg : Config) (n_classes : ℕ)
    (batch_item : List PredRow) :
    filterPredictions cfg n_classes batch_item =
      if cfg.top_k ≤
          (((classIndices n_classes).map (filterSingleClass cfg batch_item)).flatten).length
      then topK cfg.top_k
        (((classIndices n_classes).map (filterSingleClass cfg batch_item)).flatten)
      else padAndTopK cfg.top_k
        (((classIndices n_classes).map (filterSingleClass cfg batch_item)).flatten) :=
  rfl

/-- Every row of a per-class block is a real surviving row or the
zero sentinel; when nothing survives the threshold the whole block is
zero sentinels. -/
theorem filterSingleClass_all_zero {cfg : Config} {batch_item : List PredRow}
    {index : ℕ}
    (h : ∀ r ∈ batch_item, r.confs.getD index 0 ≤ cfg.confidence_thresh) :
    ∀ a ∈ filterSingleClass cfg batch_item index, a = zeroCandidate := by
  intro a ha
  have hempty : singleClassThresholded cfg.confidence_thresh index batch_item = [] := by
    apply List.filter_eq_nil_iff.mpr
    intro c hc
    rcases List.mem_map.mp hc with ⟨r, hr, rfl⟩
    simp only [decide_eq_true_eq, not_lt]
    exact h r hr
  simp only [filterSingleClass, hempty, if_pos] at ha
  rcases mem_padTo ha with h1 | rfl
  · simpa using h1
  · rfl

/-- Selecting from a list of zero sentinels yields zero sentinels. -/
theorem topK_replicate_zero (k m : ℕ) :
    topK k (List.replicate m zeroCandidate) = List.replicate (min k m) zeroCandidate := by
  rw [topK,
    sortByConfDesc_eq_self (List.pairwise_replicate.mpr (Or.inr le_rfl)),
    List.take_replicate]

/-! ### The claims -/

/-- C1: for every input batch the layer's output has exactly one row
list per image, every per-image list has exactly `top_k` rows whatever
the per-image detection counts are, and every row has exactly the six
entries `[class_id, confidence, xmin, ymin, xmax, ymax]`. -/
theorem output_shape_fixed (cfg : Config) (n_classes : ℕ)
    (batch : List (List PredRow)) :
    (callLayer cfg n_classes batch).map List.length
        = List.replicate batch.length cfg.top_k
    ∧ ∀ c : Candidate, c.toList.length = 6 := by
  constructor
  · rw [callLayer, List.map_map]
    apply List.eq_replicate_iff.mpr
    refine ⟨by simp, ?_⟩
    intro b hb
    rcases List.mem_map.mp hb with ⟨x, _, rfl⟩
    exact length_filterPredictions cfg n_classes x
  · intro c
    rfl

/-- C2: the decoded corner coordinates produced by the layer's call are
exactly the ones the specification's formulas give:
`cx = cx_offset*var_cx*w_anchor + cx_anchor`,
`cy = cy_offset*var_cy*h_anchor + cy_anchor`,
`w = exp(w_offset*var_w)*w_anchor`, `h = exp(h_offset*var_h)*h_anchor`,
corners at `cx ± 0.5*w`, `cy ± 0.5*h`, and, when normalization is
configured, `xmin, xmax` scaled by the image width and `ymin, ymax` by
the image height. -/
theorem decode_matches_spec (normalize_coords : Bool)
    (img_height img_width : ℝ) (y : EncodedRow) :
    callCoords normalize_coords img_height img_width y
      = specDecode normalize_coords img_height img_width y := by
  cases normalize_coords <;> rfl

/-- C3 (code bug): the claim says construction with `normalize_coords`
not set succeeds even when both image dimensions are omitted, matching
the constructor's own docstring; but the constructor builds
`tf.constant(self.img_height, dtype=tf.float32)` unconditionally
(source lines 73-74), which rejects a `None` argument, so this
construction fails. -/
theorem init_rejects_omitted_dims_without_normalize :
    decodeDetectionsInit (1/100) (45/100) 200 400 "centroids" false none none
      = Except.error "None values not supported." :=
  rfl

/-- C4: a candidate row for class `index` is in the thresholded list
iff it comes from an anchor row whose confidence for that class is
strictly above the threshold; class 0 is not among the class indices
the per-image loop visits; and when no row is above the threshold the
thresholded list is empty. -/
theorem threshold_filter_iff (confidence_thresh : ℚ)
    (batch_item : List PredRow) (index n_classes : ℕ) :
    (∀ c : Candidate,
        c ∈ singleClassThresholded confidence_thresh index batch_item ↔
          ∃ r ∈ batch_item,
            confidence_thresh < r.confs.getD index 0 ∧ c = mkCandidate index r)
    ∧ (0 : ℕ) ∉ classIndices n_classes
    ∧ ((∀ r ∈ batch_item, r.confs.getD index 0 ≤ confidence_thresh) →
        singleClassThresholded confidence_thresh index batch_item = []) := by
  refine ⟨fun c => ?_, ?_, fun h => ?_⟩
  · simp only [singleClassThresholded, List.mem_filter, List.mem_map,
      decide_eq_true_eq]
    constructor
    · rintro ⟨⟨r, hr, rfl⟩, hc⟩
      exact ⟨r, hr, hc, rfl⟩
    · rintro ⟨r, hr, hlt, rfl⟩
      exact ⟨⟨r, hr, rfl⟩, hlt⟩
  · simp only [classIndices, List.mem_range']
    rintro ⟨i, hi, h0⟩
    omega
  · apply List.filter_eq_nil_iff.mpr
    intro c hc
    rcases List.mem_map.mp hc with ⟨r, hr, rfl⟩
    simp only [decide_eq_true_eq, not_lt]
    exact h r hr

/-- C5: on a flat per-image list that already has at least `top_k`
rows, the direct sort-and-slice path and the pad-then-sort-and-slice
path return identical results. -/
theorem topk_paths_equiv (top_k : ℕ) (filtered_predictions : List Candidate)
    (h : top_k ≤ filtered_predictions.length) :
    topK top_k filtered_predictions = padAndTopK top_k filtered_predictions := by
  rw [padAndTopK, padTo, Nat.sub_eq_zero_of_le h, List.replicate_zero,
    List.append_nil]

/-- C6: when every per-class confidence of every anchor row is at or
below the threshold, the per-image output is exactly `top_k`
zero-sentinel rows. -/
theorem all_below_threshold_all_zero (cfg : Config) (n_classes : ℕ)
    (batch_item : List PredRow)
    (h : ∀ r ∈ batch_item, ∀ index ∈ classIndices n_classes,
        r.confs.getD index 0 ≤ cfg.confidence_thresh) :
    filterPredictions cfg n_classes batch_item
      = List.replicate cfg.top_k zeroCandidate := by
  have hzero : ∀ a ∈ ((classIndices n_classes).map
      (filterSingleClass cfg batch_item)).flatten, a = zeroCandidate := by
    intro a ha
    rcases List.mem_flatten.mp ha with ⟨l, hl, hal⟩
    rcases List.mem_map.mp hl with ⟨index, hidx, rfl⟩
    exact filterSingleClass_all_zero (fun r hr => h r hr index hidx) a hal
  rw [filterPredictions_def, List.eq_replicate_of_mem hzero]
  simp only [List.length_replicate]
  split
  · rename_i hk
    rw [topK_replicate_zero]
    congr 1
    omega
  · rename_i hk
    push_neg at hk
    rw [padAndTopK, padTo, List.length_replicate, ← List.replicate_add,
      topK_replicate_zero]
    congr 1
    omega

/-- C7: for a per-class candidate set of two boxes with different
confidences and capacity for at least two kept boxes, greedy NMS keeps
only the higher-confidence box when their IoU strictly exceeds the
threshold, and keeps both (highest confidence first) when their IoU is
at or below it, in either input order. -/
theorem nms_two_boxes (iou_threshold : ℚ) (max_output_size : ℕ)
    (a b : Candidate) (hconf : b.conf < a.conf) (hmax : 2 ≤ max_output_size) :
    (iou_threshold < iou a.box b.box →
        performNMS iou_threshold max_output_size [a, b] = [a]
        ∧ performNMS iou_threshold max_output_size [b, a] = [a])
    ∧ (iou a.box b.box ≤ iou_threshold →
        performNMS iou_threshold max_output_size [a, b] = [a, b]
        ∧ performNMS iou_threshold max_output_size [b, a] = [a, b]) := by
  obtain ⟨m, rfl⟩ : ∃ m, max_output_size = m + 2 := ⟨max_output_size - 2, by omega⟩
  have hsort1 : sortByConfDesc [a, b] = [a, b] := by
    simp only [sortByConfDesc, insertByConfDesc]
    rw [if_pos (le_of_lt hconf)]
  have hsort2 : sortByConfDesc [b, a] = [a, b] := by
    simp only [sortByConfDesc, insertByConfDesc]
    rw [if_neg (not_le.mpr hconf)]
  constructor
  · intro hiou
    have hdec : decide (iou a.box b.box ≤ iou_threshold) = false :=
      decide_eq_false (not_le.mpr hiou)
    constructor
    · rw [performNMS, hsort1]
      simp [nmsGo, hdec, nmsGo_nil]
    · rw [performNMS, hsort2]
      simp [nmsGo, hdec, nmsGo_nil]
  · intro hiou
    have hdec : decide (iou a.box b.box ≤ iou_threshold) = true :=
      decide_eq_true hiou
    constructor
    · rw [performNMS, hsort1]
      simp [nmsGo, hdec, nmsGo_nil]
    · rw [performNMS, hsort2]
      simp [nmsGo, hdec, nmsGo_nil]

/-- C8: raising the confidence threshold never increases the number of
surviving candidates of a fixed class on a fixed image. -/
theorem threshold_antitone (t1 t2 : ℚ) (index : ℕ)
    (batch_item : List PredRow) (h : t1 ≤ t2) :
    (singleClassThresholded t2 index batch_item).length
      ≤ (singleClassThresholded t1 index batch_item).length := by
  unfold singleClassThresholded
  rw [← List.countP_eq_length_filter, ← List.countP_eq_length_filter]
  exact List.countP_mono_left fun c _ hc =>
    decide_eq_true (lt_of_le_of_lt h (of_decide_eq_true hc))

/-- C9: greedy NMS is idempotent: run on its own output with the same
threshold and capacity it returns that output unchanged. -/
theorem nms_idempotent (iou_threshold : ℚ) (max_output_size : ℕ)
    (l : List Candidate) :
    performNMS iou_threshold max_output_size
        (performNMS iou_threshold max_output_size l)
      = performNMS iou_threshold max_output_size l := by
  have hsorted : (nmsGo iou_threshold max_output_size
      (sortByConfDesc l)).Pairwise (fun a b => b.conf ≤ a.conf) :=
    List.Pairwise.sublist (nmsGo_sublist _ _ _) (pairwise_sortByConfDesc l)
  simp only [performNMS]
  rw [sortByConfDesc_eq_self hsorted]
  exact nmsGo_eq_self (pairwise_iou_nmsGo _ _ _) (length_nmsGo_le _ _ _)

/-- C10: the per-image output rows are ordered by confidence in
non-increasing order: the confidence of each row is at most the
confidence of the row before it. -/
theorem output_conf_nonincreasing (cfg : Config) (n_classes : ℕ)
    (batch_item : List PredRow) :
    List.Chain' (fun a b : Candidate => b.conf ≤ a.conf)
      (filterPredictions cfg n_classes batch_item) := by
  rw [filterPredictions_def]
  split
  · rw [topK]
    exact (List.Pairwise.sublist (List.take_sublist _ _)
      (pairwise_sortByConfDesc _)).chain'
  · rw [padAndTopK, topK]
    exact (List.Pairwise.sublist (List.take_sublist _ _)
      (pairwise_sortByConfDesc _)).chain'

theorem iou_candAB : iou candA.box candB.box = 1 := by
  norm_num [candA, candB, iou, interArea, Box.area, boxU]

theorem iou_candAD : iou candA.box candD.box = 0 := by
  norm_num [candA, candD, iou, interArea, Box.area, boxU, boxV]

/-- C4 witness: on one anchor row with class-1 confidence exactly at
the threshold, the thresholded list for class 1 is empty. -/
theorem threshold_filter_iff_witness :
    singleClassThresholded 1 1 [rowLow] = [] :=
  (threshold_filter_iff 1 [rowLow] 1 3).2.2 (by decide)

/-- C5 witness: both top-k paths agree on a one-row list with
`top_k = 1`. -/
theorem topk_paths_equiv_witness :
    topK 1 [zeroCandidate] = padAndTopK 1 [zeroCandidate] :=
  topk_paths_equiv 1 [zeroCandidate] (by decide)

/-- C6 witness: with every confidence at or below the threshold the
per-image output is two zero-sentinel rows. -/
theorem all_below_threshold_all_zero_witness :
    filterPredictions cfgW 3 [rowLow] = List.replicate 2 zeroCandidate :=
  all_below_threshold_all_zero cfgW 3 [rowLow] (by decide)

/-- C7 witness: two coincident boxes of confidences 2 and 1 with IoU 1
above threshold 0 keep only the first; two disjoint ones with IoU 0
keep both. -/
theorem nms_two_boxes_witness :
    performNMS 0 2 [candA, candB] = [candA]
    ∧ performNMS 0 2 [candA, candD] = [candA, candD] := by
  refine ⟨((nms_two_boxes 0 2 candA candB (by decide) (by decide)).1 ?_).1,
    ((nms_two_boxes 0 2 candA candD (by decide) (by decide)).2 ?_).1⟩
  · rw [iou_candAB]
    decide
  · rw [iou_candAD]

/-- C8 witness: raising the threshold from 1 to 2 on one anchor row
does not increase the survivor count. -/
theorem threshold_antitone_witness :
    (singleClassThresholded 2 1 [rowLow]).length
      ≤ (singleClassThresholded 1 1 [rowLow]).length :=
  threshold_antitone 1 2 1 [rowLow] (by decide)

end DecodeDetections
